import Mathlib

/-!
Shallow embedding of the dnspod libdns provider (client.go, provider.go)
and proofs about its record translation, name handling, domain cache,
protocol envelope checking, and the Set/Delete reconciliation loops.

Go strings are modelled as Lean `String` (a list of characters), Go
`time.Duration` as `Int` nanoseconds, and Go machine integers as `Int`
with explicit wrapping where a conversion can overflow.
-/

/-! ### Go standard-library string operations used by the source -/

/-- Go `strings.HasSuffix`. -/
def goHasSuffix (s sfx : String) : Bool :=
  decide (sfx.data.length ≤ s.data.length ∧
    s.data.drop (s.data.length - sfx.data.length) = sfx.data)

/-- Go `strings.TrimSuffix`: removes one copy of the suffix when present. -/
def goTrimSuffix (s sfx : String) : String :=
  if goHasSuffix s sfx then ⟨s.data.take (s.data.length - sfx.data.length)⟩ else s

/-- Go `strings.ToUpper`, restricted to ASCII (record type tags are ASCII;
Go's Unicode case table agrees with `Char.toUpper` on ASCII). -/
def goToUpper (s : String) : String := ⟨s.data.map Char.toUpper⟩

/-- Go `strings.Contains` for a single-character substring. -/
def goContainsChar (s : String) (c : Char) : Bool := s.data.contains c

theorem goHasSuffix_append (s t : String) : goHasSuffix (s ++ t) t = true := by
  simp only [goHasSuffix, decide_eq_true_eq, String.data_append, List.length_append]
  constructor
  · omega
  · have h : s.data.length + t.data.length - t.data.length = s.data.length := by omega
    rw [h, List.drop_left]

theorem goTrimSuffix_append (s t : String) : goTrimSuffix (s ++ t) t = s := by
  simp only [goTrimSuffix, goHasSuffix_append, if_pos]
  have h : (s ++ t).data.length - t.data.length = s.data.length := by
    simp [String.data_append]
  rw [h]
  have h2 : (s ++ t).data.take s.data.length = s.data := by
    simp [String.data_append, List.take_left]
  rw [h2]

theorem string_eq_of_data (s t : String) (h : s.data = t.data) : s = t := by
  cases s; cases t; exact congrArg String.mk h

theorem eq_trim_append_of_hasSuffix {s sfx : String} (h : goHasSuffix s sfx = true) :
    s = goTrimSuffix s sfx ++ sfx := by
  simp only [goHasSuffix, decide_eq_true_eq] at h
  obtain ⟨hle, hdrop⟩ := h
  simp only [goTrimSuffix, goHasSuffix, hle, hdrop, decide_eq_true_eq, and_true,
    if_pos, true_and]
  apply string_eq_of_data
  rw [String.data_append]
  show s.data = (s.data.take (s.data.length - sfx.data.length)) ++ sfx.data
  conv_lhs => rw [← List.take_append_drop (s.data.length - sfx.data.length) s.data]
  rw [hdrop]

theorem string_ne_of_length {s t : String} (h : s.data.length ≠ t.data.length) :
    s ≠ t := by
  intro he; exact h (by rw [he])

theorem string_data_length_append (s t : String) :
    (s ++ t).data.length = s.data.length + t.data.length := by
  simp [String.data_append]

/-! ### Decimal numerals (Go `strconv`) -/

/-- The character of a single decimal digit value. -/
def digitChar (n : Nat) : Char := Char.ofNat (48 + n)

/-- Digit-list worker, structurally recursive on a fuel bound so that it
reduces inside the kernel. -/
def natToDigitsAux : Nat → Nat → List Char
  | 0, _ => []
  | fuel + 1, n =>
    if n < 10 then [digitChar n]
    else natToDigitsAux fuel (n / 10) ++ [digitChar (n % 10)]

/-- The decimal digit characters of a natural number, most significant first. -/
def natToDigits (n : Nat) : List Char := natToDigitsAux (n + 1) n

theorem natToDigitsAux_congr : ∀ (m f1 f2 : Nat), m < f1 → m < f2 →
    natToDigitsAux f1 m = natToDigitsAux f2 m := by
  intro m
  induction m using Nat.strong_induction_on with
  | _ m ih =>
    intro f1 f2 h1 h2
    cases f1 with
    | zero => omega
    | succ a =>
      cases f2 with
      | zero => omega
      | succ b =>
        simp only [natToDigitsAux]
        by_cases h : m < 10
        · simp [h]
        · simp only [h, if_false]
          congr 1
          exact ih (m / 10) (Nat.div_lt_self (by omega) (by omega)) a b
            (by omega) (by omega)

theorem natToDigits_eq (n : Nat) :
    natToDigits n = if n < 10 then [digitChar n]
      else natToDigits (n / 10) ++ [digitChar (n % 10)] := by
  show natToDigitsAux (n + 1) n = _
  by_cases h : n < 10
  · simp [natToDigitsAux, h]
  · simp only [natToDigitsAux, h, if_false]
    congr 1
    exact natToDigitsAux_congr (n / 10) n (n / 10 + 1) (by omega) (by omega)

/-- Go `strconv.Itoa` / `strconv.FormatInt` on a natural number. -/
def natRepr (n : Nat) : String := ⟨natToDigits n⟩

/-- Go `strconv.Itoa` on a (64-bit) integer value. -/
def intRepr (i : Int) : String :=
  if i < 0 then ⟨'-' :: natToDigits i.natAbs⟩ else natRepr i.toNat

/-- Numeric value of a digit character. -/
def digitVal (c : Char) : Nat := c.toNat - 48

/-- Value of a most-significant-first digit string. -/
def digitsToNat (cs : List Char) : Nat :=
  cs.foldl (fun a c => a * 10 + digitVal c) 0

theorem digitVal_digitChar : ∀ n : Nat, n < 10 → digitVal (digitChar n) = n := by
  decide

theorem isDigit_digitChar : ∀ n : Nat, n < 10 → (digitChar n).isDigit = true := by
  decide

theorem natToDigits_all_digit (n : Nat) :
    (natToDigits n).all Char.isDigit = true := by
  induction n using Nat.strong_induction_on with
  | _ n ih =>
    rw [natToDigits_eq]
    by_cases h : n < 10
    · simp only [h, if_pos, List.all_cons, List.all_nil, Bool.and_true]
      exact isDigit_digitChar n h
    · simp only [h, if_false, List.all_append, List.all_cons,
        List.all_nil, Bool.and_true, Bool.and_eq_true]
      exact ⟨ih (n / 10) (Nat.div_lt_self (by omega) (by omega)),
        isDigit_digitChar (n % 10) (Nat.mod_lt _ (by omega))⟩

theorem natToDigits_ne_nil (n : Nat) : natToDigits n ≠ [] := by
  rw [natToDigits_eq]
  by_cases h : n < 10
  · simp [h]
  · simp only [h, if_false]
    intro hc
    exact (List.append_ne_nil_of_right_ne_nil _ (by simp)) hc

theorem digitsToNat_append_singleton (ds : List Char) (c : Char) :
    digitsToNat (ds ++ [c]) = digitsToNat ds * 10 + digitVal c := by
  simp [digitsToNat, List.foldl_append]

theorem digitsToNat_natToDigits (n : Nat) : digitsToNat (natToDigits n) = n := by
  induction n using Nat.strong_induction_on with
  | _ n ih =>
    rw [natToDigits_eq]
    by_cases h : n < 10
    · simp only [h, if_pos]
      simp [digitsToNat, digitVal_digitChar n h]
    · simp only [h, if_false]
      rw [digitsToNat_append_singleton,
        ih (n / 10) (Nat.div_lt_self (by omega) (by omega)),
        digitVal_digitChar (n % 10) (Nat.mod_lt _ (by omega))]
      omega

theorem natToDigits_head_digit (n : Nat) :
    ∀ c ∈ natToDigits n, c.isDigit = true := by
  intro c hc
  have h := natToDigits_all_digit n
  rw [List.all_eq_true] at h
  exact h c hc

/-- Go `strconv.ParseInt(s, 10, 64)` (`strconv.Atoi` on 64-bit platforms):
returns the value and a success flag. On a syntax error Go returns 0; on a
range error it returns the clamped min/max value; both with a non-nil error,
here flag `false`. -/
def goParseInt64 (s : String) : Int × Bool :=
  match s.data with
  | [] => (0, false)
  | c :: cs =>
    let digits : List Char := if c = '-' ∨ c = '+' then cs else c :: cs
    if digits = [] then (0, false)
    else if ¬ digits.all Char.isDigit then (0, false)
    else
      let m : Int := (digitsToNat digits : Nat)
      let sv : Int := if c = '-' then -m else m
      if sv < (-9223372036854775808) then ((-9223372036854775808), false)
      else if sv > 9223372036854775807 then (9223372036854775807, false)
      else (sv, true)

theorem goParseInt64_cons (c : Char) (cs : List Char) :
    goParseInt64 ⟨c :: cs⟩ =
      (let digits : List Char := if c = '-' ∨ c = '+' then cs else c :: cs
       if digits = [] then ((0 : Int), false)
       else if ¬ digits.all Char.isDigit then (0, false)
       else
         let m : Int := (digitsToNat digits : Nat)
         let sv : Int := if c = '-' then -m else m
         if sv < (-9223372036854775808) then ((-9223372036854775808), false)
         else if sv > 9223372036854775807 then (9223372036854775807, false)
         else (sv, true)) := rfl

theorem goParseInt64_natRepr (n : Nat) (h : (n : Int) ≤ 9223372036854775807) :
    goParseInt64 (natRepr n) = ((n : Int), true) := by
  have hne := natToDigits_ne_nil n
  have hall := natToDigits_all_digit n
  obtain ⟨c, cs, hcons⟩ : ∃ c cs, natToDigits n = c :: cs := by
    cases hh : natToDigits n with
    | nil => exact absurd hh hne
    | cons c cs => exact ⟨c, cs, rfl⟩
  have hcdig : c.isDigit = true := by
    apply natToDigits_head_digit n
    rw [hcons]; exact List.mem_cons_self _ _
  have hcm : ¬ (c = '-' ∨ c = '+') := by
    rintro (rfl | rfl) <;> simp_all [Char.isDigit]
  have hcneg : ¬ (c = '-') := fun hc => hcm (Or.inl hc)
  have hcp : ¬ (c = '+') := fun hc => hcm (Or.inr hc)
  unfold natRepr
  rw [hcons, goParseInt64_cons]
  simp only [hcneg, hcp, eq_self_iff_true, iff_true, iff_false, or_self,
    if_false, if_neg, not_false_iff, eq_iff_iff, false_or, or_false, ← hcons,
    hne, hall, not_true]
  rw [digitsToNat_natToDigits]
  split
  · next hlt => exact absurd hlt (by omega)
  · split
    · next hgt => exact absurd hgt (by omega)
    · rfl

theorem goParseInt64_intRepr (v : Int) (h1 : (-9223372036854775808) ≤ v) (h2 : v ≤ 9223372036854775807) :
    goParseInt64 (intRepr v) = (v, true) := by
  by_cases hv : v < 0
  · unfold intRepr
    simp only [hv, if_pos]
    have hne := natToDigits_ne_nil v.natAbs
    have hall := natToDigits_all_digit v.natAbs
    rw [goParseInt64_cons]
    simp only [eq_self_iff_true, true_or, if_true, hne, not_false_iff, hall,
      not_true, if_false, if_neg, if_pos]
    rw [digitsToNat_natToDigits]
    have hva : ((v.natAbs : Nat) : Int) = -v := by omega
    rw [hva]
    simp only [if_pos, neg_neg]
    split
    · next hlt => exact absurd hlt (by omega)
    · split
      · next hgt => exact absurd hgt (by omega)
      · rfl
  · unfold intRepr
    simp only [hv, if_neg, not_false_iff]
    have hn : ((v.toNat : Nat) : Int) = v := by omega
    rw [goParseInt64_natRepr v.toNat (by omega), hn]

/-! ### 64-bit and 16-bit machine arithmetic -/

/-- Wrap a mathematical integer to Go's `int64` (two's complement). -/
def int64wrap (x : Int) : Int := (x + 9223372036854775808) % 18446744073709551616 - 9223372036854775808

theorem int64wrap_eq_self {x : Int} (h1 : (-9223372036854775808) ≤ x) (h2 : x < 9223372036854775808) :
    int64wrap x = x := by
  unfold int64wrap
  omega

/-- Go conversion `uint16(i)` of an `int` value: the low 16 bits. -/
def uint16OfInt (p : Int) : Nat := (p % 65536).toNat

/-! ### IP address literals

Modelled from the spec: the spec treats the IP library (`net/netip`) as an
external collaborator and only relies on (a) `A`/`AAAA` values being parsed
as IP-address literals, with parse failure falling back to the generic
record, (b) the textual form of an address containing `:` exactly for IPv6
(address-family detection), and (c) printing then re-parsing an address
giving back the same address. The model below realises this interface with
dotted-quad IPv4 and colon-separated 8-group IPv6 (groups printed in
decimal rather than netip's compressed hex - the spec relies only on the
interface above, which this preserves). -/

/-- Modelled from the spec: an IP address (external `netip.Addr`). -/
inductive IPAddr where
  | v4 (a b c d : Fin 256)
  | v6 (g0 g1 g2 g3 g4 g5 g6 g7 : Fin 65536)
deriving DecidableEq

/-- Modelled from the spec: textual form of an address (`netip.Addr.String`).
IPv4 prints dotted-quad; IPv6 prints eight `:`-separated groups, so the
textual form contains `:` exactly for IPv6. -/
def printAddr : IPAddr → String
  | .v4 a b c d =>
      ⟨natToDigits a.val ++ '.' :: (natToDigits b.val ++ '.' :: (natToDigits c.val
        ++ '.' :: natToDigits d.val))⟩
  | .v6 g0 g1 g2 g3 g4 g5 g6 g7 =>
      ⟨natToDigits g0.val ++ ':' :: (natToDigits g1.val ++ ':' :: (natToDigits g2.val
        ++ ':' :: (natToDigits g3.val ++ ':' :: (natToDigits g4.val
        ++ ':' :: (natToDigits g5.val ++ ':' :: (natToDigits g6.val
        ++ ':' :: natToDigits g7.val))))))⟩

/-- Split a character list on a separator character. -/
def splitOnChar (sep : Char) : List Char → List (List Char)
  | [] => [[]]
  | c :: cs =>
    if c = sep then [] :: splitOnChar sep cs
    else match splitOnChar sep cs with
      | [] => [[c]]
      | p :: ps => (c :: p) :: ps

/-- A canonical decimal numeral: nonempty, all digits, no leading zero. -/
def parseDecCanon (cs : List Char) : Option Nat :=
  if cs = [] then none
  else if ¬ cs.all Char.isDigit then none
  else if cs.head? = some '0' ∧ cs ≠ ['0'] then none
  else some (digitsToNat cs)

def parseV4Part (cs : List Char) : Option (Fin 256) :=
  match parseDecCanon cs with
  | none => none
  | some n => if h : n < 256 then some ⟨n, h⟩ else none

def parseV6Part (cs : List Char) : Option (Fin 65536) :=
  match parseDecCanon cs with
  | none => none
  | some n => if h : n < 65536 then some ⟨n, h⟩ else none

def mapOpt (f : α → Option β) : List α → Option (List β)
  | [] => some []
  | a :: as =>
    match f a, mapOpt f as with
    | some b, some bs => some (b :: bs)
    | _, _ => none

/-- Modelled from the spec: `netip.ParseAddr`, inverse to `printAddr` on
printed addresses; other strings may fail to parse. -/
def parseAddr (s : String) : Option IPAddr :=
  if goContainsChar s ':' then
    match mapOpt parseV6Part (splitOnChar ':' s.data) with
    | some [g0, g1, g2, g3, g4, g5, g6, g7] => some (.v6 g0 g1 g2 g3 g4 g5 g6 g7)
    | _ => none
  else
    match mapOpt parseV4Part (splitOnChar '.' s.data) with
    | some [a, b, c, d] => some (.v4 a b c d)
    | _ => none

theorem splitOnChar_no_sep {sep : Char} {p : List Char}
    (h : ∀ c ∈ p, c ≠ sep) : splitOnChar sep p = [p] := by
  induction p with
  | nil => rfl
  | cons c cs ih =>
    have hc : c ≠ sep := h c (List.mem_cons_self _ _)
    have hrest : splitOnChar sep cs = [cs] :=
      ih (fun x hx => h x (List.mem_cons_of_mem _ hx))
    simp [splitOnChar, hc, hrest]

theorem splitOnChar_append_sep {sep : Char} {p t : List Char}
    (h : ∀ c ∈ p, c ≠ sep) :
    splitOnChar sep (p ++ sep :: t) = p :: splitOnChar sep t := by
  induction p with
  | nil => simp [splitOnChar]
  | cons c cs ih =>
    have hc : c ≠ sep := h c (List.mem_cons_self _ _)
    have hrest := ih (fun x hx => h x (List.mem_cons_of_mem _ hx))
    simp only [List.cons_append, splitOnChar, hc, if_neg, not_false_iff,
      List.append_eq, hrest]

theorem natToDigits_no_sep {sep : Char} (hsep : sep.isDigit = false) (n : Nat) :
    ∀ c ∈ natToDigits n, c ≠ sep := by
  intro c hc he
  subst he
  rw [natToDigits_head_digit n c hc] at hsep
  exact Bool.noConfusion hsep

theorem parseDecCanon_natToDigits (n : Nat) :
    parseDecCanon (natToDigits n) = some n := by
  have hne := natToDigits_ne_nil n
  have hall := natToDigits_all_digit n
  have hlead : ¬ ((natToDigits n).head? = some '0' ∧ natToDigits n ≠ ['0']) := by
    rintro ⟨hh, hne0⟩
    -- A head digit '0' forces the single-digit numeral of 0.
    by_cases h0 : n < 10
    · rw [natToDigits_eq, if_pos h0] at hh hne0
      simp only [List.head?_cons, Option.some.injEq] at hh
      have : n = 0 := by
        by_contra hn0
        have h1 : 1 ≤ n := by omega
        have : digitVal (digitChar n) = n := digitVal_digitChar n h0
        rw [hh] at this
        simp [digitVal] at this
        omega
      subst this
      exact hne0 rfl
    · -- For n ≥ 10 the leading digit is the leading digit of n / 10 ... ;
      -- show by strong induction that the head digit is nonzero.
      have key : ∀ m : Nat, m ≠ 0 → (natToDigits m).head? ≠ some '0' := by
        intro m
        induction m using Nat.strong_induction_on with
        | _ m ih =>
          intro hm0 hh'
          rw [natToDigits_eq] at hh'
          by_cases hm : m < 10
          · rw [if_pos hm] at hh'
            simp only [List.head?_cons, Option.some.injEq] at hh'
            have := digitVal_digitChar m hm
            rw [hh'] at this
            simp [digitVal] at this
            omega
          · rw [if_neg hm] at hh'
            have hne' := natToDigits_ne_nil (m / 10)
            obtain ⟨c, cs, hcons⟩ : ∃ c cs, natToDigits (m / 10) = c :: cs := by
              cases hx : natToDigits (m / 10) with
              | nil => exact absurd hx hne'
              | cons c cs => exact ⟨c, cs, rfl⟩
            rw [hcons] at hh'
            simp only [List.cons_append, List.head?_cons] at hh'
            apply ih (m / 10) (Nat.div_lt_self (by omega) (by omega)) (by omega)
            rw [hcons]
            exact hh'
      exact key n (by omega) hh
  unfold parseDecCanon
  rw [if_neg (by exact hne), if_neg (by simp [hall]), if_neg hlead,
    digitsToNat_natToDigits]

theorem parseV4Part_natToDigits (a : Fin 256) :
    parseV4Part (natToDigits a.val) = some a := by
  unfold parseV4Part
  rw [parseDecCanon_natToDigits]
  simp [a.isLt]

theorem parseV6Part_natToDigits (g : Fin 65536) :
    parseV6Part (natToDigits g.val) = some g := by
  unfold parseV6Part
  rw [parseDecCanon_natToDigits]
  simp [g.isLt]

theorem printAddr_v4_no_colon (a b c d : Fin 256) :
    goContainsChar (printAddr (.v4 a b c d)) ':' = false := by
  rw [goContainsChar, Bool.eq_false_iff]
  intro hc
  have hmem : (':' : Char) ∈ (printAddr (.v4 a b c d)).data := List.elem_iff.mp hc
  simp only [printAddr, List.mem_append, List.mem_cons] at hmem
  rcases hmem with h | h | h | h | h | h | h <;>
    first
      | exact absurd (natToDigits_head_digit _ _ h) (by decide)
      | exact absurd h (by decide)

theorem printAddr_v6_has_colon (g0 g1 g2 g3 g4 g5 g6 g7 : Fin 65536) :
    goContainsChar (printAddr (.v6 g0 g1 g2 g3 g4 g5 g6 g7)) ':' = true := by
  rw [goContainsChar]
  apply List.elem_iff.mpr
  simp only [printAddr, List.mem_append, List.mem_cons]
  tauto

theorem parseAddr_printAddr (ip : IPAddr) : parseAddr (printAddr ip) = some ip := by
  cases ip with
  | v4 a b c d =>
    unfold parseAddr
    rw [printAddr_v4_no_colon]
    simp only [Bool.false_eq_true, if_false]
    have hsplit : splitOnChar '.' (printAddr (.v4 a b c d)).data =
        [natToDigits a.val, natToDigits b.val, natToDigits c.val,
          natToDigits d.val] := by
      show splitOnChar '.' (natToDigits a.val ++ '.' :: (natToDigits b.val
        ++ '.' :: (natToDigits c.val ++ '.' :: natToDigits d.val))) = _
      have hnd : ('.' : Char).isDigit = false := by decide
      rw [splitOnChar_append_sep (natToDigits_no_sep hnd _),
        splitOnChar_append_sep (natToDigits_no_sep hnd _),
        splitOnChar_append_sep (natToDigits_no_sep hnd _),
        splitOnChar_no_sep (natToDigits_no_sep hnd _)]
    rw [hsplit]
    simp [mapOpt, parseV4Part_natToDigits]
  | v6 g0 g1 g2 g3 g4 g5 g6 g7 =>
    unfold parseAddr
    rw [printAddr_v6_has_colon]
    simp only [if_true]
    have hsplit : splitOnChar ':' (printAddr (.v6 g0 g1 g2 g3 g4 g5 g6 g7)).data =
        [natToDigits g0.val, natToDigits g1.val, natToDigits g2.val,
          natToDigits g3.val, natToDigits g4.val, natToDigits g5.val,
          natToDigits g6.val, natToDigits g7.val] := by
      show splitOnChar ':' (natToDigits g0.val ++ ':' :: (natToDigits g1.val
        ++ ':' :: (natToDigits g2.val ++ ':' :: (natToDigits g3.val
        ++ ':' :: (natToDigits g4.val ++ ':' :: (natToDigits g5.val
        ++ ':' :: (natToDigits g6.val ++ ':' :: natToDigits g7.val))))))) = _
      have hnd : (':' : Char).isDigit = false := by decide
      rw [splitOnChar_append_sep (natToDigits_no_sep hnd _),
        splitOnChar_append_sep (natToDigits_no_sep hnd _),
        splitOnChar_append_sep (natToDigits_no_sep hnd _),
        splitOnChar_append_sep (natToDigits_no_sep hnd _),
        splitOnChar_append_sep (natToDigits_no_sep hnd _),
        splitOnChar_append_sep (natToDigits_no_sep hnd _),
        splitOnChar_append_sep (natToDigits_no_sep hnd _),
        splitOnChar_no_sep (natToDigits_no_sep hnd _)]
    rw [hsplit]
    simp [mapOpt, parseV6Part_natToDigits]

/-- Go `time.Duration.Seconds()` truncated by conversion to `int`:
whole seconds of a duration in nanoseconds, truncated toward zero.
(Go computes this through `float64`; for durations below 2^53 ns the
float computation is exact and agrees with this integer truncation.) -/
def durationSeconds (t : Int) : Int := t.sign * ((t.natAbs / 1000000000 : Nat) : Int)

theorem durationSeconds_whole (s : Int) :
    durationSeconds (s * 1000000000) = s := by
  unfold durationSeconds
  rcases lt_trichotomy s 0 with hs | hs | hs
  · have h1 : (s * 1000000000).sign = -1 := Int.sign_eq_neg_one_of_neg (by nlinarith)
    have h2 : (s * 1000000000).natAbs = s.natAbs * 1000000000 := by
      rw [Int.natAbs_mul]; rfl
    rw [h1, h2, Nat.mul_div_cancel _ (by omega)]
    omega
  · subst hs; simp
  · have h1 : (s * 1000000000).sign = 1 := Int.sign_eq_one_of_pos (by nlinarith)
    have h2 : (s * 1000000000).natAbs = s.natAbs * 1000000000 := by
      rw [Int.natAbs_mul]; rfl
    rw [h1, h2, Nat.mul_div_cancel _ (by omega)]
    omega

/-! ### The uniform record model (external libdns library)

Modelled from the spec: the uniform record model is external ("provided by
the caller", spec section 3) - a closed set of variants, each exposing the
canonical projection {name, type tag, opaque data string, TTL}. TTLs are
durations, modelled as `Int` nanoseconds. -/

/-- The canonical projection of a uniform record (libdns `RR`). -/
structure RRfields where
  name : String
  ty : String
  data : String
  ttl : Int
deriving DecidableEq

/-- Modelled from the spec: the closed set of uniform record variants
(libdns `Address`/`TXT`/`CNAME`/`MX`/`RR`). The mail-exchange preference
is an unsigned 16-bit value, held as a `Nat`. -/
inductive LibdnsRecord where
  | Address (name : String) (ip : IPAddr) (ttl : Int)
  | TXT (name : String) (text : String) (ttl : Int)
  | CNAME (name : String) (target : String) (ttl : Int)
  | MX (name : String) (target : String) (preference : Nat) (ttl : Int)
  | RR (name : String) (ty : String) (ttl : Int) (data : String)
deriving DecidableEq

/-- Modelled from the spec: the canonical projection of each variant
(the libdns `RR()` view): address records project their IP text and an
`A`/`AAAA` tag by family, mail-exchange records project
`<preference> <target>`, generic records project their own fields. -/
def LibdnsRecord.RRview : LibdnsRecord → RRfields
  | .Address n ip t =>
      ⟨n, match ip with | .v4 _ _ _ _ => "A" | .v6 _ _ _ _ _ _ _ _ => "AAAA",
        printAddr ip, t⟩
  | .TXT n s t => ⟨n, "TXT", s, t⟩
  | .CNAME n tg t => ⟨n, "CNAME", tg, t⟩
  | .MX n tg p t => ⟨n, "MX", natRepr p ++ " " ++ tg, t⟩
  | .RR n ty t d => ⟨n, ty, d, t⟩

/-! ### Provider wire structures (client.go) -/

/-- client.go `record`: the provider's flat, all-string record.
The Go field `Type` is called `Ty` here (`Type` is reserved in Lean). -/
structure record where
  ID : String
  TTL : String
  Value : String
  Enabled : String
  Status : String
  UpdatedOn : String
  Name : String
  Line : String
  LineID : String
  Ty : String
  Weight : String
  MX : String
  Remark : String
deriving DecidableEq

/-- A `record` with only Name/Type/Value/TTL set, other fields at Go's
zero value `""` (as in the `convertFromLibDNSRecord` literals). -/
def record.mk4 (name ty value ttl : String) : record :=
  ⟨"", ttl, value, "", "", "", name, "", "", ty, "", "", ""⟩

/-- A `record` with Name/Type/Value/TTL/MX set, other fields `""`. -/
def record.mk5 (name ty value ttl mx : String) : record :=
  ⟨"", ttl, value, "", "", "", name, "", "", ty, "", mx, ""⟩

/-- client.go `domain`. The Go `ID` field is a `json.Number`, used only
via the `string(...)` conversion, so it is modelled as a string. -/
structure domain where
  ID : String
  Name : String
  Status : String
deriving DecidableEq

/-! ### Record name processing (client.go lines 316-347) -/

/-- client.go `extractRecordName`: extracts the subdomain part from a
full domain name. -/
def extractRecordName (name zone : String) : String :=
  let name1 := goTrimSuffix name "."
  let zone1 := goTrimSuffix zone "."
  if name1 = zone1 then "@"
  else if goHasSuffix name1 ("." ++ zone1) then goTrimSuffix name1 ("." ++ zone1)
  else name1

/-- client.go `makeAbsoluteName`: creates an absolute domain name from a
relative name and zone. -/
def makeAbsoluteName (name zone : String) : String :=
  let zone1 := goTrimSuffix zone "."
  if name = "@" ∨ name = "" then zone1 ++ "."
  else if goHasSuffix name "." then name
  else name ++ "." ++ zone1 ++ "."

/-- A fully-qualified name lying in a zone: the zone apex, or a name whose
zone-relative part is a nonempty label (not `@`, no trailing dot).
Used to state the in-zone round-trip properties. -/
def InZoneName (name zone : String) : Prop :=
  let zone1 := goTrimSuffix zone "."
  name = zone1 ++ "." ∨
    (goHasSuffix name ("." ++ zone1 ++ ".") = true ∧
      goTrimSuffix name ("." ++ zone1 ++ ".") ≠ "" ∧
      goTrimSuffix name ("." ++ zone1 ++ ".") ≠ "@" ∧
      goHasSuffix (goTrimSuffix name ("." ++ zone1 ++ ".")) "." = false)

instance (name zone : String) : Decidable (InZoneName name zone) := by
  unfold InZoneName
  exact inferInstanceAs (Decidable (_ ∨ _))

/-! ### Record translation (client.go lines 349-469) -/

/-- client.go constant `successCode`. -/
def successCode : String := "1"

/-- client.go `getRecordType`: `AAAA` iff the IP's text contains `:`. -/
def getRecordType (ip : IPAddr) : String :=
  if goContainsChar (printAddr ip) ':' then "AAAA" else "A"

/-- client.go `convertToLibDNSRecord`: converts a provider record to the
uniform (libdns) form. TTL parse errors are ignored (value used as
returned); the MX preference parse is skipped on empty or erroring input;
`A`/`AAAA` values that fail IP parsing fall back to the generic record. -/
def convertToLibDNSRecord (rec0 : record) (zone : String) : LibdnsRecord :=
  let ttl : Int := (goParseInt64 rec0.TTL).1
  let ttlDuration : Int := int64wrap (ttl * 1000000000)
  let absoluteName := makeAbsoluteName rec0.Name zone
  let up := goToUpper rec0.Ty
  if up = "A" ∨ up = "AAAA" then
    match parseAddr rec0.Value with
    | none => .RR absoluteName rec0.Ty ttlDuration rec0.Value
    | some ip => .Address absoluteName ip ttlDuration
  else if up = "TXT" then .TXT absoluteName rec0.Value ttlDuration
  else if up = "CNAME" then .CNAME absoluteName rec0.Value ttlDuration
  else if up = "MX" then
    let preference : Int :=
      if rec0.MX ≠ "" ∧ (goParseInt64 rec0.MX).2 = true
      then (goParseInt64 rec0.MX).1 else 0
    .MX absoluteName rec0.Value (uint16OfInt preference) ttlDuration
  else .RR absoluteName rec0.Ty ttlDuration rec0.Value

/-- client.go `convertFromLibDNSRecord`: converts a uniform record to the
provider's wire form. The TTL is serialized as whole (truncated) seconds. -/
def convertFromLibDNSRecord (libRec : LibdnsRecord) (zone : String) : record :=
  match libRec with
  | .Address n ip t =>
      record.mk4 (extractRecordName n zone) (getRecordType ip) (printAddr ip)
        (intRepr (durationSeconds t))
  | .TXT n s t =>
      record.mk4 (extractRecordName n zone) "TXT" s (intRepr (durationSeconds t))
  | .CNAME n tg t =>
      record.mk4 (extractRecordName n zone) "CNAME" tg (intRepr (durationSeconds t))
  | .MX n tg p t =>
      record.mk5 (extractRecordName n zone) "MX" tg (intRepr (durationSeconds t))
        (natRepr p)
  | .RR n ty t d =>
      record.mk4 (extractRecordName n zone) ty d (intRepr (durationSeconds t))

/-- The provider-and-back round trip of claim C1:
`convertToLibDNSRecord(convertFromLibDNSRecord(r, zone), zone)`. -/
def roundTrip (r : LibdnsRecord) (zone : String) : LibdnsRecord :=
  convertToLibDNSRecord (convertFromLibDNSRecord r zone) zone

/-! ### Name round-trip lemmas -/

theorem string_append_assoc (a b c : String) : (a ++ b) ++ c = a ++ (b ++ c) :=
  string_eq_of_data _ _ (by simp [String.data_append])

theorem string_length_pos_of_ne_empty {s : String} (h : s ≠ "") :
    1 ≤ s.data.length := by
  by_contra hlen
  apply h
  apply string_eq_of_data
  have h0 : s.data.length = 0 := by omega
  have hnil : s.data = [] := List.length_eq_zero.mp h0
  exact hnil

/-- Relativizing an absolutized relative name gives back the relative name,
for `@` and for nonempty names without a trailing dot. -/
theorem extract_make_relative (r zone : String)
    (h : r = "@" ∨ (r ≠ "" ∧ goHasSuffix r "." = false)) :
    extractRecordName (makeAbsoluteName r zone) zone = r := by
  by_cases hat : r = "@"
  · subst hat
    unfold makeAbsoluteName extractRecordName
    simp only [eq_self_iff_true, true_or, if_true, if_pos]
    rw [goTrimSuffix_append]
    simp
  · rcases h with h | ⟨hne, hdot⟩
    · exact absurd h hat
    · unfold makeAbsoluteName
      have h1 : ¬ (r = "@" ∨ r = "") := by
        rintro (hc | hc)
        · exact hat hc
        · exact hne hc
      simp only [h1, if_neg, not_false_iff, hdot, Bool.false_eq_true, if_false]
      unfold extractRecordName
      have hassoc : ((r ++ ".") ++ goTrimSuffix zone ".") ++ "." =
          (r ++ ("." ++ goTrimSuffix zone ".")) ++ "." := by
        rw [string_append_assoc r "." (goTrimSuffix zone ".")]
      rw [hassoc, goTrimSuffix_append]
      have hlen : (r ++ ("." ++ goTrimSuffix zone ".")).data.length ≠
          (goTrimSuffix zone ".").data.length := by
        rw [string_data_length_append, string_data_length_append]
        have := string_length_pos_of_ne_empty hne
        have h1dot : ("." : String).data.length = 1 := by decide
        omega
      have hne2 : ¬ (r ++ ("." ++ goTrimSuffix zone ".") = goTrimSuffix zone ".") :=
        string_ne_of_length hlen
      simp only [hne2, if_neg, not_false_iff, goHasSuffix_append, if_true, if_pos,
        goTrimSuffix_append]

/-- Absolutizing a relativized in-zone absolute name gives back the name. -/
theorem make_extract_inZone (name zone : String) (h : InZoneName name zone) :
    makeAbsoluteName (extractRecordName name zone) zone = name := by
  rcases h with happex | ⟨hsfx, hne, hat, hdot⟩
  · -- apex
    subst happex
    unfold extractRecordName
    rw [goTrimSuffix_append]
    simp only [eq_self_iff_true, if_true, if_pos]
    unfold makeAbsoluteName
    simp
  · -- in-zone subdomain
    have hname := eq_trim_append_of_hasSuffix hsfx
    set sub := goTrimSuffix name ("." ++ goTrimSuffix zone "." ++ ".") with hsub
    unfold extractRecordName
    have hassoc1 : sub ++ ("." ++ goTrimSuffix zone "." ++ ".") =
        (sub ++ ("." ++ goTrimSuffix zone ".")) ++ "." := by
      rw [← string_append_assoc]
    rw [hname, hassoc1, goTrimSuffix_append]
    have hlen : (sub ++ ("." ++ goTrimSuffix zone ".")).data.length ≠
        (goTrimSuffix zone ".").data.length := by
      rw [string_data_length_append, string_data_length_append]
      have := string_length_pos_of_ne_empty hne
      have h1dot : ("." : String).data.length = 1 := by decide
      omega
    have hne2 : ¬ (sub ++ ("." ++ goTrimSuffix zone ".") = goTrimSuffix zone ".") :=
      string_ne_of_length hlen
    simp only [hne2, if_neg, not_false_iff, goHasSuffix_append, if_true, if_pos,
      goTrimSuffix_append]
    unfold makeAbsoluteName
    have h1 : ¬ (sub = "@" ∨ sub = "") := by
      rintro (hc | hc)
      · exact hat hc
      · exact hne hc
    simp only [h1, if_neg, not_false_iff, hdot, Bool.false_eq_true, if_false]
    rw [string_append_assoc sub "." (goTrimSuffix zone ".")]

/-- Already-dot-terminated names pass through absolutization unchanged. -/
theorem makeAbsoluteName_absolute (n zone : String)
    (h : goHasSuffix n "." = true) : makeAbsoluteName n zone = n := by
  unfold makeAbsoluteName
  have h1 : ¬ (n = "@" ∨ n = "") := by
    rintro (rfl | rfl) <;> exact absurd h (by decide)
  simp only [h1, if_neg, not_false_iff, h, if_true]

/-! ### Provider protocol client (client.go lines 101-234)

The HTTP transport and JSON decoding are external; a call's outcome is
modelled as either a network/read failure or a status code plus a body.
The body carries the results of the JSON decodes the source performs on
the response bytes: the common envelope (`apiResponse`) and the three
endpoint-specific payload shapes, each `none` when that decode would fail. -/

/-- client.go `apiResponse.Status`: the common response envelope. -/
structure Envelope where
  code : String
  message : String
  createdAt : String
deriving DecidableEq

/-- Decoded views of one HTTP response body. -/
structure Body where
  envelope : Option Envelope
  domains : Option (List domain)
  records : Option (List record)
  recPayload : Option record
deriving DecidableEq

/-- Outcome of one HTTP POST: network/read failure, or status plus body. -/
inductive HTTPOutcome where
  | netErr (msg : String)
  | resp (statusCode : Nat) (body : Body)
deriving DecidableEq

/-- Errors produced by `makeRequest` and the payload decodes. -/
inductive ReqError where
  | transportNet (msg : String)
  | transportStatus (statusCode : Nat)
  | decodeError
  | apiError (code message : String)
deriving DecidableEq

/-- Errors surfaced by the public operations. -/
inductive ProviderError where
  | req (e : ReqError)
  | domainNotFound (name : String)
  | recordNotFound (name ty data : String)
deriving DecidableEq

/-- client.go `makeRequest`, response-handling path (lines 132-159):
network failure, then HTTP status (compared against 200 exactly), then
envelope decode, then the envelope status-code check against
`successCode`, and only then is the body handed to the caller. Request
construction (params, auth, headers) does not affect these claims and is
not modelled. -/
def makeRequest (o : HTTPOutcome) : Except ReqError Body :=
  match o with
  | .netErr m => .error (.transportNet m)
  | .resp status body =>
    if status ≠ 200 then .error (.transportStatus status)
    else
      match body.envelope with
      | none => .error .decodeError
      | some env =>
        if env.code ≠ successCode then .error (.apiError env.code env.message)
        else .ok body

/-- Transport-level failure (spec `TransportError`): network failure or
HTTP status rejection, as opposed to envelope/payload failures. -/
def isTransportError (r : Except ReqError Body) : Bool :=
  match r with
  | .error (.transportNet _) => true
  | .error (.transportStatus _) => true
  | _ => false

/-- client.go `listRecords`: `makeRequest` then the `recordListResponse`
payload decode. The domain id only shapes the request. -/
def listRecords (domainID : String) (o : HTTPOutcome) : Except ReqError (List record) :=
  match makeRequest o with
  | .error e => .error e
  | .ok body =>
    match body.records with
    | none => .error .decodeError
    | some rs => .ok rs

/-- client.go `createRecord`: `makeRequest` then the `recordResponse`
payload decode. -/
def createRecord (o : HTTPOutcome) : Except ReqError record :=
  match makeRequest o with
  | .error e => .error e
  | .ok body =>
    match body.recPayload with
    | none => .error .decodeError
    | some r => .ok r

/-- client.go `updateRecord`: `makeRequest` then the `recordResponse`
payload decode. -/
def updateRecord (o : HTTPOutcome) : Except ReqError record :=
  match makeRequest o with
  | .error e => .error e
  | .ok body =>
    match body.recPayload with
    | none => .error .decodeError
    | some r => .ok r

/-- client.go `deleteRecord`: `makeRequest`, body discarded. -/
def deleteRecord (o : HTTPOutcome) : Except ReqError Unit :=
  match makeRequest o with
  | .error e => .error e
  | .ok _ => .ok ()

/-! ### Domain resolver (client.go lines 162-215) -/

/-- client.go `Client`: the only mutable state is the cached domain list
(the mutex serializes access; operations here are sequential). -/
structure Client where
  domainList : List domain
deriving DecidableEq

/-- client.go `getDomains`: returns the cache when non-empty, otherwise
issues one `Domain.List` request and stores the decoded list. Result:
(domains or error, client after the call, number of `Domain.List`
requests issued). -/
def getDomains (c : Client) (o : HTTPOutcome) :
    Except ReqError (List domain) × Client × Nat :=
  if c.domainList ≠ [] then (.ok c.domainList, c, 0)
  else
    match makeRequest o with
    | .error e => (.error e, c, 1)
    | .ok body =>
      match body.domains with
      | none => (.error .decodeError, c, 1)
      | some ds => (.ok ds, ⟨ds⟩, 1)

/-- client.go `getDomainID` (= spec `resolve`): trims one trailing dot
from the zone, fetches the (possibly cached) domain list and looks up the
exact name, first match in list order. -/
def getDomainID (c : Client) (o : HTTPOutcome) (domainName : String) :
    Except ProviderError String × Client × Nat :=
  let dn := goTrimSuffix domainName "."
  let out := getDomains c o
  match out.1 with
  | .error e => (.error (.req e), out.2)
  | .ok ds =>
    match ds.find? (fun d => d.Name == dn) with
    | some d => (.ok d.ID, out.2)
    | none => (.error (.domainNotFound dn), out.2)

/-! ### Reconciliation engine (provider.go) -/

/-- provider.go SetRecords lines 157-166: the existing-record scan.
`recordID` starts empty and is set to the first record whose translated
name and type equal the input's; duplicates after the first are never
reached (the Go loop breaks). -/
def findRecordIDByNameType (existing : List record) (zone : String)
    (rr : RRfields) : String :=
  match existing with
  | [] => ""
  | er :: rest =>
    let e := (convertToLibDNSRecord er zone).RRview
    if e.name = rr.name ∧ e.ty = rr.ty then er.ID
    else findRecordIDByNameType rest zone rr

/-- provider.go DeleteRecords lines 106-116: the existing-record scan,
matching on translated name, type and data. -/
def findRecordIDByTriple (existing : List record) (zone : String)
    (rr : RRfields) : String :=
  match existing with
  | [] => ""
  | er :: rest =>
    let e := (convertToLibDNSRecord er zone).RRview
    if e.name = rr.name ∧ e.ty = rr.ty ∧ e.data = rr.data then er.ID
    else findRecordIDByTriple rest zone rr

/-- The name-and-type match predicate used by SetRecords, as a Boolean on
one existing record. -/
def nameTypeMatchB (zone : String) (rr : RRfields) (er : record) : Bool :=
  ((convertToLibDNSRecord er zone).RRview.name == rr.name) &&
    ((convertToLibDNSRecord er zone).RRview.ty == rr.ty)

/-- The exact {name, type, data} match predicate used by DeleteRecords,
as a Boolean on one existing record. -/
def tripleMatchB (zone : String) (rr : RRfields) (er : record) : Bool :=
  ((convertToLibDNSRecord er zone).RRview.name == rr.name) &&
    ((convertToLibDNSRecord er zone).RRview.ty == rr.ty) &&
    ((convertToLibDNSRecord er zone).RRview.data == rr.data)

/-- A provider mutation issued by SetRecords: `Record.Create` with the
translated record, or `Record.Modify` with an existing record's id. -/
inductive RecordCall where
  | create (wire : record)
  | modify (recordID : String) (wire : record)
deriving DecidableEq

/-- provider.go SetRecords lines 153-189: the per-input loop. `os`
supplies the provider's response to each issued create/modify call (a
missing oracle entry behaves as a network failure). Returns (translated
results so far, error if any, the issued calls in order). -/
def setLoop (zone : String) (existing : List record) :
    List LibdnsRecord → List HTTPOutcome →
      List LibdnsRecord × Option ProviderError × List RecordCall
  | [], _ => ([], none, [])
  | libRec :: rest, os =>
    let rr := libRec.RRview
    let recordID := findRecordIDByNameType existing zone rr
    let wire := convertFromLibDNSRecord libRec zone
    if recordID ≠ "" then
      match updateRecord (os.headD (.netErr "")) with
      | .error e => ([], some (.req e), [.modify recordID wire])
      | .ok updated =>
        let out := setLoop zone existing rest os.tail
        (convertToLibDNSRecord updated zone :: out.1, out.2.1,
          .modify recordID wire :: out.2.2)
    else
      match createRecord (os.headD (.netErr "")) with
      | .error e => ([], some (.req e), [.create wire])
      | .ok created =>
        let out := setLoop zone existing rest os.tail
        (convertToLibDNSRecord created zone :: out.1, out.2.1,
          .create wire :: out.2.2)

/-- provider.go `SetRecords`: resolve the domain, list existing records
once, then run the per-input loop. Returns (results, error, issued
record calls, client after the call). -/
def SetRecords (c : Client) (dOut lOut : HTTPOutcome) (zone : String)
    (inputs : List LibdnsRecord) (os : List HTTPOutcome) :
    List LibdnsRecord × Option ProviderError × List RecordCall × Client :=
  match getDomainID c dOut zone with
  | (.error e, c1, _) => ([], some e, [], c1)
  | (.ok domainID, c1, _) =>
    match listRecords domainID lOut with
    | .error e => ([], some (.req e), [], c1)
    | .ok existing =>
      let out := setLoop zone existing inputs os
      (out.1, out.2.1, out.2.2, c1)

/-- provider.go DeleteRecords lines 101-129: the per-input loop. On a
missing match the loop stops with the records deleted so far and a
record-not-found error; otherwise it issues `Record.Remove` and appends
the caller's input record to the result. -/
def deleteLoop (zone : String) (existing : List record) :
    List LibdnsRecord → List HTTPOutcome →
      List LibdnsRecord × Option ProviderError
  | [], _ => ([], none)
  | libRec :: rest, os =>
    let rr := libRec.RRview
    let recordID := findRecordIDByTriple existing zone rr
    if recordID = "" then ([], some (.recordNotFound rr.name rr.ty rr.data))
    else
      match deleteRecord (os.headD (.netErr "")) with
      | .error e => ([], some (.req e))
      | .ok _ =>
        let out := deleteLoop zone existing rest os.tail
        (libRec :: out.1, out.2)

/-- provider.go `DeleteRecords`: resolve the domain, list existing
records once, then run the per-input loop. -/
def DeleteRecords (c : Client) (dOut lOut : HTTPOutcome) (zone : String)
    (inputs : List LibdnsRecord) (os : List HTTPOutcome) :
    List LibdnsRecord × Option ProviderError × Client :=
  match getDomainID c dOut zone with
  | (.error e, c1, _) => ([], some e, c1)
  | (.ok domainID, c1, _) =>
    match listRecords domainID lOut with
    | .error e => ([], some (.req e), c1)
    | .ok existing =>
      let out := deleteLoop zone existing inputs os
      (out.1, out.2, c1)

/-! ### Branch lemmas for the translator -/

theorem convertTo_TXT (name value ttl zone : String) :
    convertToLibDNSRecord (record.mk4 name "TXT" value ttl) zone =
      .TXT (makeAbsoluteName name zone) value
        (int64wrap ((goParseInt64 ttl).1 * 1000000000)) := rfl

theorem convertTo_CNAME (name value ttl zone : String) :
    convertToLibDNSRecord (record.mk4 name "CNAME" value ttl) zone =
      .CNAME (makeAbsoluteName name zone) value
        (int64wrap ((goParseInt64 ttl).1 * 1000000000)) := rfl

theorem convertTo_MX (name value ttl mx zone : String) :
    convertToLibDNSRecord (record.mk5 name "MX" value ttl mx) zone =
      .MX (makeAbsoluteName name zone) value
        (uint16OfInt (if mx ≠ "" ∧ (goParseInt64 mx).2 = true
          then (goParseInt64 mx).1 else 0))
        (int64wrap ((goParseInt64 ttl).1 * 1000000000)) := rfl

theorem getRecordType_v4 (a b c d : Fin 256) :
    getRecordType (.v4 a b c d) = "A" := by
  unfold getRecordType
  rw [printAddr_v4_no_colon]
  rfl

theorem getRecordType_v6 (g0 g1 g2 g3 g4 g5 g6 g7 : Fin 65536) :
    getRecordType (.v6 g0 g1 g2 g3 g4 g5 g6 g7) = "AAAA" := by
  unfold getRecordType
  rw [printAddr_v6_has_colon]
  rfl

theorem convertTo_Address (name ttl zone : String) (ip : IPAddr) :
    convertToLibDNSRecord (record.mk4 name (getRecordType ip) (printAddr ip) ttl)
        zone =
      .Address (makeAbsoluteName name zone) ip
        (int64wrap ((goParseInt64 ttl).1 * 1000000000)) := by
  cases ip with
  | v4 a b c d =>
    rw [getRecordType_v4]
    unfold convertToLibDNSRecord
    have hc : (goToUpper (record.mk4 name "A" (printAddr (.v4 a b c d)) ttl).Ty = "A"
        ∨ goToUpper (record.mk4 name "A" (printAddr (.v4 a b c d)) ttl).Ty = "AAAA") := by
      left; rfl
    rw [if_pos hc]
    show (match parseAddr (printAddr (.v4 a b c d)) with
      | none => LibdnsRecord.RR _ _ _ _
      | some ip => LibdnsRecord.Address _ ip _) = _
    rw [parseAddr_printAddr]
    rfl
  | v6 g0 g1 g2 g3 g4 g5 g6 g7 =>
    rw [getRecordType_v6]
    unfold convertToLibDNSRecord
    have hc : (goToUpper (record.mk4 name "AAAA" (printAddr (.v6 g0 g1 g2 g3 g4 g5 g6 g7)) ttl).Ty = "A"
        ∨ goToUpper (record.mk4 name "AAAA" (printAddr (.v6 g0 g1 g2 g3 g4 g5 g6 g7)) ttl).Ty = "AAAA") := by
      right; rfl
    rw [if_pos hc]
    show (match parseAddr (printAddr (.v6 g0 g1 g2 g3 g4 g5 g6 g7)) with
      | none => LibdnsRecord.RR _ _ _ _
      | some ip => LibdnsRecord.Address _ ip _) = _
    rw [parseAddr_printAddr]
    rfl

theorem convertTo_generic (name ty value ttl zone : String)
    (hA : goToUpper ty ≠ "A") (hAAAA : goToUpper ty ≠ "AAAA")
    (hTXT : goToUpper ty ≠ "TXT") (hCNAME : goToUpper ty ≠ "CNAME")
    (hMX : goToUpper ty ≠ "MX") :
    convertToLibDNSRecord (record.mk4 name ty value ttl) zone =
      .RR (makeAbsoluteName name zone) ty
        (int64wrap ((goParseInt64 ttl).1 * 1000000000)) value := by
  unfold convertToLibDNSRecord
  have h1 : ¬ (goToUpper (record.mk4 name ty value ttl).Ty = "A" ∨
      goToUpper (record.mk4 name ty value ttl).Ty = "AAAA") := by
    rintro (hc | hc)
    · exact hA hc
    · exact hAAAA hc
  have h2 : goToUpper (record.mk4 name ty value ttl).Ty ≠ "TXT" := hTXT
  have h3 : goToUpper (record.mk4 name ty value ttl).Ty ≠ "CNAME" := hCNAME
  have h4 : goToUpper (record.mk4 name ty value ttl).Ty ≠ "MX" := hMX
  rw [if_neg h1, if_neg h2, if_neg h3, if_neg h4]
  rfl

/-! ### TTL serialization round trip -/

theorem ttl_round (t : Int) (h0 : t % 1000000000 = 0)
    (h1 : (-9223372036854775808) ≤ t) (h2 : t < 9223372036854775808) :
    int64wrap ((goParseInt64 (intRepr (durationSeconds t))).1 * 1000000000) = t := by
  have hts : t = (t / 1000000000) * 1000000000 := by omega
  set s := t / 1000000000 with hsdef
  have hsec : durationSeconds t = s := by
    rw [hts]; exact durationSeconds_whole s
  rw [hsec, goParseInt64_intRepr s (by omega) (by omega)]
  simp only []
  rw [← hts]
  exact int64wrap_eq_self h1 h2

/-! ### The round-trip safety conditions of the amended claim C1 -/

/-- Variant-specific conditions under which the provider round trip is
the identity: mail-exchange preferences fit in 16 bits (they are
`uint16` in the uniform model), and generic records carry a type tag
that does not collide (case-insensitively) with a specially-handled
type. -/
def RoundTripSafe : LibdnsRecord → Prop
  | .MX _ _ p _ => p < 65536
  | .RR _ ty _ _ => goToUpper ty ≠ "A" ∧ goToUpper ty ≠ "AAAA" ∧
      goToUpper ty ≠ "TXT" ∧ goToUpper ty ≠ "CNAME" ∧ goToUpper ty ≠ "MX"
  | _ => True

instance (r : LibdnsRecord) : Decidable (RoundTripSafe r) := by
  unfold RoundTripSafe
  cases r <;> infer_instance

theorem roundTrip_eq (r : LibdnsRecord) (zone : String)
    (hz : InZoneName r.RRview.name zone)
    (ht0 : r.RRview.ttl % 1000000000 = 0)
    (ht1 : (-9223372036854775808) ≤ r.RRview.ttl) (ht2 : r.RRview.ttl < 9223372036854775808)
    (hs : RoundTripSafe r) :
    roundTrip r zone = r := by
  cases r with
  | Address n ip t =>
    have hname : makeAbsoluteName (extractRecordName n zone) zone = n :=
      make_extract_inZone n zone hz
    unfold roundTrip convertFromLibDNSRecord
    rw [convertTo_Address, hname, ttl_round t ht0 ht1 ht2]
  | TXT n s0 t =>
    have hname : makeAbsoluteName (extractRecordName n zone) zone = n :=
      make_extract_inZone n zone hz
    unfold roundTrip convertFromLibDNSRecord
    rw [convertTo_TXT, hname, ttl_round t ht0 ht1 ht2]
  | CNAME n tg t =>
    have hname : makeAbsoluteName (extractRecordName n zone) zone = n :=
      make_extract_inZone n zone hz
    unfold roundTrip convertFromLibDNSRecord
    rw [convertTo_CNAME, hname, ttl_round t ht0 ht1 ht2]
  | MX n tg p t =>
    have hname : makeAbsoluteName (extractRecordName n zone) zone = n :=
      make_extract_inZone n zone hz
    have hp : p < 65536 := hs
    unfold roundTrip convertFromLibDNSRecord
    rw [convertTo_MX, hname, ttl_round t ht0 ht1 ht2]
    have hmxparse : goParseInt64 (natRepr p) = ((p : Int), true) :=
      goParseInt64_natRepr p (by omega)
    have hmxne : natRepr p ≠ "" := by
      unfold natRepr
      intro hc
      exact natToDigits_ne_nil p (congrArg String.data hc)
    rw [if_pos ⟨hmxne, by rw [hmxparse]⟩, hmxparse]
    have hpref : uint16OfInt (p : Int) = p := by
      unfold uint16OfInt
      have : ((p : Int) % 65536) = (p : Int) := by omega
      rw [this]
      omega
    rw [hpref]
  | RR n ty t d =>
    have hname : makeAbsoluteName (extractRecordName n zone) zone = n :=
      make_extract_inZone n zone hz
    obtain ⟨hA, hAAAA, hTXT, hCNAME, hMX⟩ := hs
    show convertToLibDNSRecord
        (record.mk4 (extractRecordName n zone) ty d (intRepr (durationSeconds t)))
        zone = LibdnsRecord.RR n ty t d
    rw [convertTo_generic (extractRecordName n zone) ty d
      (intRepr (durationSeconds t)) zone hA hAAAA hTXT hCNAME hMX, hname,
      ttl_round t ht0 ht1 ht2]

/-! ### Matching-scan characterizations -/

theorem findRecordIDByNameType_eq_find? (existing : List record) (zone : String)
    (rr : RRfields) :
    findRecordIDByNameType existing zone rr =
      (match existing.find? (nameTypeMatchB zone rr) with
        | some er => er.ID
        | none => "") := by
  induction existing with
  | nil => rfl
  | cons er rest ih =>
    simp only [findRecordIDByNameType]
    by_cases h : (convertToLibDNSRecord er zone).RRview.name = rr.name ∧
        (convertToLibDNSRecord er zone).RRview.ty = rr.ty
    · have hb : nameTypeMatchB zone rr er = true := by
        simp [nameTypeMatchB, h.1, h.2]
      rw [if_pos h, List.find?_cons_of_pos _ hb]
    · have hb : ¬ (nameTypeMatchB zone rr er = true) := by
        intro hbt
        apply h
        simpa [nameTypeMatchB, Bool.and_eq_true, beq_iff_eq] using hbt
      rw [if_neg h, List.find?_cons_of_neg _ (by simpa using hb), ih]

theorem findRecordIDByTriple_eq_find? (existing : List record) (zone : String)
    (rr : RRfields) :
    findRecordIDByTriple existing zone rr =
      (match existing.find? (tripleMatchB zone rr) with
        | some er => er.ID
        | none => "") := by
  induction existing with
  | nil => rfl
  | cons er rest ih =>
    simp only [findRecordIDByTriple]
    by_cases h : (convertToLibDNSRecord er zone).RRview.name = rr.name ∧
        (convertToLibDNSRecord er zone).RRview.ty = rr.ty ∧
        (convertToLibDNSRecord er zone).RRview.data = rr.data
    · have hb : tripleMatchB zone rr er = true := by
        simp [tripleMatchB, h.1, h.2.1, h.2.2]
      rw [if_pos h, List.find?_cons_of_pos _ hb]
    · have hb : ¬ (tripleMatchB zone rr er = true) := by
        intro hbt
        apply h
        have := hbt
        simp only [tripleMatchB, Bool.and_eq_true, beq_iff_eq] at this
        exact ⟨this.1.1, this.1.2, this.2⟩
      rw [if_neg h, List.find?_cons_of_neg _ (by simpa using hb), ih]

theorem findRecordIDByTriple_empty_of_no_match (existing : List record)
    (zone : String) (rr : RRfields)
    (h : ∀ er ∈ existing, tripleMatchB zone rr er = false) :
    findRecordIDByTriple existing zone rr = "" := by
  rw [findRecordIDByTriple_eq_find?]
  rw [List.find?_eq_none.mpr (fun er hm => by rw [h er hm]; exact Bool.noConfusion)]

/-! ### SetRecords per-input decision -/

/-- The single mutation SetRecords issues for one input record: modify
with the first name-and-type match's id when that id is non-empty,
otherwise create. -/
def setStepCall (existing : List record) (zone : String) (r : LibdnsRecord) :
    RecordCall :=
  let recordID := findRecordIDByNameType existing zone r.RRview
  if recordID ≠ "" then .modify recordID (convertFromLibDNSRecord r zone)
  else .create (convertFromLibDNSRecord r zone)

theorem setLoop_head (zone : String) (existing : List record)
    (r : LibdnsRecord) (rest : List LibdnsRecord) (os : List HTTPOutcome) :
    (setLoop zone existing (r :: rest) os).2.2.head? =
      some (setStepCall existing zone r) := by
  simp only [setLoop, setStepCall]
  by_cases hid : findRecordIDByNameType existing zone r.RRview ≠ ""
  · rw [if_pos hid, if_pos hid]
    cases hu : updateRecord (os.headD (.netErr "")) <;> simp [hu]
  · rw [if_neg hid, if_neg hid]
    cases hu : createRecord (os.headD (.netErr "")) <;> simp [hu]

theorem setLoop_trace (zone : String) (existing : List record) :
    ∀ (inputs : List LibdnsRecord) (os : List HTTPOutcome),
      (setLoop zone existing inputs os).2.2 =
        (inputs.map (setStepCall existing zone)).take
          (setLoop zone existing inputs os).2.2.length := by
  intro inputs
  induction inputs with
  | nil => intro os; rfl
  | cons r rest ih =>
    intro os
    simp only [setLoop, List.map_cons]
    by_cases hid : findRecordIDByNameType existing zone r.RRview ≠ ""
    · rw [if_pos hid]
      cases hu : updateRecord (os.headD (.netErr "")) with
      | error e => simp [setStepCall, hid]
      | ok updated =>
        show RecordCall.modify _ _ :: (setLoop zone existing rest os.tail).2.2 = _
        simp only [List.length_cons, List.take_succ_cons]
        rw [setStepCall, if_pos hid]
        exact congrArg (List.cons _) (ih os.tail)
    · rw [if_neg hid]
      cases hu : createRecord (os.headD (.netErr "")) with
      | error e => simp [setStepCall, hid]
      | ok created =>
        show RecordCall.create _ :: (setLoop zone existing rest os.tail).2.2 = _
        simp only [List.length_cons, List.take_succ_cons]
        rw [setStepCall, if_neg hid]
        exact congrArg (List.cons _) (ih os.tail)

/-! ### DeleteRecords loop lemmas -/

theorem deleteLoop_take (zone : String) (existing : List record) :
    ∀ (inputs : List LibdnsRecord) (os : List HTTPOutcome),
      (deleteLoop zone existing inputs os).1 =
        inputs.take (deleteLoop zone existing inputs os).1.length ∧
      ((deleteLoop zone existing inputs os).2 = none →
        (deleteLoop zone existing inputs os).1 = inputs) := by
  intro inputs
  induction inputs with
  | nil => intro os; exact ⟨rfl, fun _ => rfl⟩
  | cons r rest ih =>
    intro os
    simp only [deleteLoop]
    by_cases hid : findRecordIDByTriple existing zone r.RRview = ""
    · rw [if_pos hid]
      refine ⟨rfl, fun hc => ?_⟩
      exact Option.noConfusion hc
    · rw [if_neg hid]
      cases hdel : deleteRecord (os.headD (.netErr "")) with
      | error e =>
        refine ⟨rfl, fun hc => ?_⟩
        exact Option.noConfusion hc
      | ok u =>
        obtain ⟨ih1, ih2⟩ := ih os.tail
        constructor
        · show r :: (deleteLoop zone existing rest os.tail).1 = _
          simp only [List.length_cons, List.take_succ_cons]
          exact congrArg (List.cons _) ih1
        · intro h2
          show r :: (deleteLoop zone existing rest os.tail).1 = r :: rest
          exact congrArg (List.cons _) (ih2 h2)

theorem deleteLoop_skip (zone : String) (existing : List record)
    (oOK : HTTPOutcome) (hok : deleteRecord oOK = .ok ()) :
    ∀ (done tail : List LibdnsRecord) (osRest : List HTTPOutcome),
      (∀ d ∈ done, findRecordIDByTriple existing zone d.RRview ≠ "") →
      deleteLoop zone existing (done ++ tail)
          (List.replicate done.length oOK ++ osRest) =
        (done ++ (deleteLoop zone existing tail osRest).1,
          (deleteLoop zone existing tail osRest).2) := by
  intro done
  induction done with
  | nil => intro tail osRest _; simp
  | cons d done ih =>
    intro tail osRest h
    have hd : findRecordIDByTriple existing zone d.RRview ≠ "" :=
      h d (List.mem_cons_self _ _)
    simp only [List.cons_append, List.length_cons, List.replicate_succ,
      deleteLoop]
    rw [if_neg hd]
    have hhead : ((oOK :: (List.replicate done.length oOK ++ osRest)).headD
        (HTTPOutcome.netErr "")) = oOK := rfl
    rw [hhead, hok]
    show (d :: (deleteLoop zone existing (done ++ tail)
        (List.replicate done.length oOK ++ osRest)).1,
      (deleteLoop zone existing (done ++ tail)
        (List.replicate done.length oOK ++ osRest)).2) = _
    rw [ih tail osRest (fun x hx => h x (List.mem_cons_of_mem _ hx))]

theorem deleteLoop_head_no_match (zone : String) (existing : List record)
    (r : LibdnsRecord) (rest : List LibdnsRecord) (os : List HTTPOutcome)
    (h : ∀ er ∈ existing, tripleMatchB zone r.RRview er = false) :
    deleteLoop zone existing (r :: rest) os =
      ([], some (.recordNotFound r.RRview.name r.RRview.ty r.RRview.data)) := by
  simp only [deleteLoop]
  rw [if_pos (findRecordIDByTriple_empty_of_no_match existing zone r.RRview h)]

/-! ### Domain cache lemmas -/

theorem getDomainID_state (c : Client) (o : HTTPOutcome) (zn : String) :
    (getDomainID c o zn).2 = (getDomains c o).2 := by
  simp only [getDomainID]
  cases hg : (getDomains c o).1 with
  | error e => rfl
  | ok ds =>
    cases hf : ds.find? (fun d => d.Name == goTrimSuffix zn ".") with
    | none =>
      show (match ds.find? (fun (d : domain) => d.Name == goTrimSuffix zn ".") with
        | some d => (Except.ok (domain.ID d), (getDomains c o).2)
        | none => (Except.error (ProviderError.domainNotFound
            (goTrimSuffix zn ".")), (getDomains c o).2)).2 = _
      rw [hf]
    | some d =>
      show (match ds.find? (fun (d : domain) => d.Name == goTrimSuffix zn ".") with
        | some d => (Except.ok (domain.ID d), (getDomains c o).2)
        | none => (Except.error (ProviderError.domainNotFound
            (goTrimSuffix zn ".")), (getDomains c o).2)).2 = _
      rw [hf]

theorem getDomains_cached (c : Client) (o : HTTPOutcome)
    (h : c.domainList ≠ []) : getDomains c o = (.ok c.domainList, c, 0) := by
  unfold getDomains
  rw [if_pos h]

theorem getDomains_populate (c0 : Client) (o : HTTPOutcome) (body : Body)
    (ds : List domain) (hc : c0.domainList = []) (h1 : makeRequest o = .ok body)
    (h2 : body.domains = some ds) : getDomains c0 o = (.ok ds, ⟨ds⟩, 1) := by
  unfold getDomains
  rw [if_neg (by simp [hc]), h1]
  show (match body.domains with
    | none => (Except.error ReqError.decodeError, c0, 1)
    | some ds => (Except.ok ds, (⟨ds⟩ : Client), 1)) = _
  rw [h2]

theorem getDomainID_cached (c : Client) (o : HTTPOutcome) (zn : String)
    (h : c.domainList ≠ []) :
    (getDomainID c o zn).2.1 = c ∧ (getDomainID c o zn).2.2 = 0 := by
  have hs := getDomainID_state c o zn
  rw [getDomains_cached c o h] at hs
  exact ⟨by rw [hs], by rw [hs]⟩

theorem getDomainID_populate (c0 : Client) (o : HTTPOutcome) (zn : String)
    (body : Body) (ds : List domain) (hc : c0.domainList = [])
    (h1 : makeRequest o = .ok body) (h2 : body.domains = some ds) :
    (getDomainID c0 o zn).2.1 = ⟨ds⟩ ∧ (getDomainID c0 o zn).2.2 = 1 := by
  have hs := getDomainID_state c0 o zn
  rw [getDomains_populate c0 o body ds hc h1 h2] at hs
  exact ⟨by rw [hs], by rw [hs]⟩

/-! ### Operation-level reduction lemmas -/

theorem SetRecords_resolved (c : Client) (dOut lOut : HTTPOutcome)
    (zone : String) (inputs : List LibdnsRecord) (os : List HTTPOutcome)
    (did : String) (c1 : Client) (k : Nat) (existing : List record)
    (hdid : getDomainID c dOut zone = (.ok did, c1, k))
    (hlist : listRecords did lOut = .ok existing) :
    SetRecords c dOut lOut zone inputs os =
      ((setLoop zone existing inputs os).1,
        (setLoop zone existing inputs os).2.1,
        (setLoop zone existing inputs os).2.2, c1) := by
  unfold SetRecords
  rw [hdid]
  show (match listRecords did lOut with
    | .error e => ([], some (ProviderError.req e), [], c1)
    | .ok existing =>
      ((setLoop zone existing inputs os).1,
        (setLoop zone existing inputs os).2.1,
        (setLoop zone existing inputs os).2.2, c1)) = _
  rw [hlist]

theorem DeleteRecords_resolved (c : Client) (dOut lOut : HTTPOutcome)
    (zone : String) (inputs : List LibdnsRecord) (os : List HTTPOutcome)
    (did : String) (c1 : Client) (k : Nat) (existing : List record)
    (hdid : getDomainID c dOut zone = (.ok did, c1, k))
    (hlist : listRecords did lOut = .ok existing) :
    DeleteRecords c dOut lOut zone inputs os =
      ((deleteLoop zone existing inputs os).1,
        (deleteLoop zone existing inputs os).2, c1) := by
  unfold DeleteRecords
  rw [hdid]
  show (match listRecords did lOut with
    | .error e => ([], some (ProviderError.req e), c1)
    | .ok existing =>
      ((deleteLoop zone existing inputs os).1,
        (deleteLoop zone existing inputs os).2, c1)) = _
  rw [hlist]

/-! ### Claim theorems -/

/-- C1 (counterexample): the claim fails as stated. The text record
`TXT {www.example.com., "x", 1.5s}` has an in-zone name, yet the provider
round trip truncates its TTL to one second, so the canonical projection
{name, type, data, TTL} is not reproduced. -/
theorem C1_roundtrip_counterexample :
    InZoneName "www.example.com." "example.com." ∧
    (roundTrip (.TXT "www.example.com." "x" 1500000000) "example.com.").RRview ≠
      (LibdnsRecord.TXT "www.example.com." "x" 1500000000).RRview := by
  exact ⟨by decide, by decide⟩

/-- C1 (amended): for a uniform record whose name is in-zone with a
well-formed relative part, whose TTL is a whole number of seconds in the
`int64` range, and which satisfies the variant conditions `RoundTripSafe`
(mail-exchange preference fits `uint16`; a generic record's upper-cased
type tag is none of A/AAAA/TXT/CNAME/MX), translating to provider form
and back reproduces the canonical projection - indeed the whole record. -/
theorem C1_roundtrip_amended (r : LibdnsRecord) (zone : String)
    (hz : InZoneName r.RRview.name zone)
    (ht0 : r.RRview.ttl % 1000000000 = 0)
    (ht1 : (-9223372036854775808) ≤ r.RRview.ttl) (ht2 : r.RRview.ttl < 9223372036854775808)
    (hs : RoundTripSafe r) :
    (roundTrip r zone).RRview = r.RRview ∧ roundTrip r zone = r := by
  have h := roundTrip_eq r zone hz ht0 ht1 ht2 hs
  exact ⟨by rw [h], h⟩

theorem C1_roundtrip_witness :
    (roundTrip (.MX "mail.example.com." "mx1.example.com." 10 600000000000)
        "example.com.").RRview =
      (LibdnsRecord.MX "mail.example.com." "mx1.example.com." 10
        600000000000).RRview ∧
    roundTrip (.MX "mail.example.com." "mx1.example.com." 10 600000000000)
        "example.com." =
      .MX "mail.example.com." "mx1.example.com." 10 600000000000 :=
  C1_roundtrip_amended (.MX "mail.example.com." "mx1.example.com." 10
    600000000000) "example.com." (by decide) (by decide) (by decide) (by decide)
    (by decide)

/-- C2 (counterexample): the claim fails as stated. A `Domain.List`
request that succeeds with an empty domain list does not populate the
cache (the cache check is for non-emptiness), so a second resolve issues
a second `Domain.List` request: two sequential resolves trigger two
requests, not one. -/
theorem C2_cache_counterexample :
    (getDomains ⟨[]⟩
        (.resp 200 ⟨some ⟨"1", "ok", ""⟩, some [], none, none⟩)).1 = .ok [] ∧
    (getDomainID ⟨[]⟩ (.resp 200 ⟨some ⟨"1", "ok", ""⟩, some [], none, none⟩)
        "example.com.").2.2 +
      (getDomainID
        ((getDomainID ⟨[]⟩
          (.resp 200 ⟨some ⟨"1", "ok", ""⟩, some [], none, none⟩)
          "example.com.").2.1)
        (.resp 200 ⟨some ⟨"1", "ok", ""⟩, some [], none, none⟩)
        "example.com.").2.2 = 2 :=
  ⟨rfl, rfl⟩

/-- C2 (amended): once the client's cache is non-empty, every resolve
issues zero `Domain.List` requests and leaves the client unchanged; and
a first resolve whose `Domain.List` succeeded with a NON-EMPTY domain
list issues exactly one request and populates the cache, after which
every later resolve issues none - so two sequential resolves (the first
receiving a non-empty list) trigger exactly one `Domain.List` call. -/
theorem C2_cache_amended :
    (∀ (c : Client) (o : HTTPOutcome) (zn : String), c.domainList ≠ [] →
      (getDomainID c o zn).2.1 = c ∧ (getDomainID c o zn).2.2 = 0) ∧
    (∀ (o : HTTPOutcome) (body : Body) (ds : List domain) (zn : String),
      makeRequest o = .ok body → body.domains = some ds → ds ≠ [] →
      (getDomainID ⟨[]⟩ o zn).2.2 = 1 ∧
      ∀ (o2 : HTTPOutcome) (zn2 : String),
        (getDomainID ((getDomainID ⟨[]⟩ o zn).2.1) o2 zn2).2.2 = 0 ∧
        (getDomainID ((getDomainID ⟨[]⟩ o zn).2.1) o2 zn2).2.1 =
          (getDomainID ⟨[]⟩ o zn).2.1) := by
  constructor
  · exact getDomainID_cached
  · intro o body ds zn h1 h2 hne
    obtain ⟨hst, hcount⟩ := getDomainID_populate ⟨[]⟩ o zn body ds rfl h1 h2
    refine ⟨hcount, ?_⟩
    intro o2 zn2
    rw [hst]
    obtain ⟨ha, hb⟩ := getDomainID_cached ⟨ds⟩ o2 zn2 hne
    exact ⟨hb, by rw [ha]⟩

theorem C2_cache_witness :
    (getDomainID ⟨[]⟩ (.resp 200 ⟨some ⟨"1", "ok", ""⟩,
        some [⟨"1001", "example.com", "enable"⟩], none, none⟩)
      "example.com.").2.2 = 1 ∧
    (getDomainID ((getDomainID ⟨[]⟩ (.resp 200 ⟨some ⟨"1", "ok", ""⟩,
        some [⟨"1001", "example.com", "enable"⟩], none, none⟩)
      "example.com.").2.1) (.resp 200 ⟨some ⟨"1", "ok", ""⟩,
        some [⟨"1001", "example.com", "enable"⟩], none, none⟩)
      "example.com.").2.2 = 0 := by
  have h := C2_cache_amended.2
    (.resp 200 ⟨some ⟨"1", "ok", ""⟩,
      some [⟨"1001", "example.com", "enable"⟩], none, none⟩)
    ⟨some ⟨"1", "ok", ""⟩, some [⟨"1001", "example.com", "enable"⟩], none, none⟩
    [⟨"1001", "example.com", "enable"⟩] "example.com." rfl rfl (by decide)
  exact ⟨h.1, (h.2 _ "example.com.").1⟩

/-- C3 (counterexample): the claim fails as stated. With one existing
record whose name and type match the input but whose identifier is the
empty string, a name-and-type match IS found, yet SetRecords issues a
create call, not a modify. -/
theorem C3_set_match_counterexample :
    nameTypeMatchB "example.com."
      (LibdnsRecord.TXT "www.example.com." "new" 0).RRview
      (record.mk4 "www" "TXT" "v" "600") = true ∧
    (setLoop "example.com." [record.mk4 "www" "TXT" "v" "600"]
        [.TXT "www.example.com." "new" 0] []).2.2 =
      [.create (record.mk4 "www" "TXT" "new" "0")] :=
  ⟨by decide, by decide⟩

/-- C3 (amended): SetRecords matches existing records by translated
{name, type} only, taking the first match in provider-list order (the
scan is `List.find?`); the call issued for each input is described by
`setStepCall`: modify with the first match's identifier when that
identifier is non-empty, otherwise create (so a match whose identifier
is empty also leads to a create); the issued call trace is a prefix of
the per-input decisions; and once the domain is resolved and the
existing records are listed, SetRecords' calls are exactly the loop's. -/
theorem C3_set_match_amended :
    (∀ (existing : List record) (zone : String) (rr : RRfields),
      findRecordIDByNameType existing zone rr =
        (match existing.find? (nameTypeMatchB zone rr) with
          | some er => er.ID
          | none => "")) ∧
    (∀ (zone : String) (existing : List record) (r : LibdnsRecord)
        (rest : List LibdnsRecord) (os : List HTTPOutcome),
      (setLoop zone existing (r :: rest) os).2.2.head? =
        some (setStepCall existing zone r)) ∧
    (∀ (zone : String) (existing : List record) (inputs : List LibdnsRecord)
        (os : List HTTPOutcome),
      (setLoop zone existing inputs os).2.2 =
        (inputs.map (setStepCall existing zone)).take
          (setLoop zone existing inputs os).2.2.length) ∧
    (∀ (c : Client) (dOut lOut : HTTPOutcome) (zone : String)
        (inputs : List LibdnsRecord) (os : List HTTPOutcome) (did : String)
        (c1 : Client) (k : Nat) (existing : List record),
      getDomainID c dOut zone = (.ok did, c1, k) →
      listRecords did lOut = .ok existing →
      (SetRecords c dOut lOut zone inputs os).2.2.1 =
        (setLoop zone existing inputs os).2.2) := by
  refine ⟨findRecordIDByNameType_eq_find?, setLoop_head, setLoop_trace, ?_⟩
  intro c dOut lOut zone inputs os did c1 k existing hdid hlist
  rw [SetRecords_resolved c dOut lOut zone inputs os did c1 k existing hdid hlist]

theorem C3_set_match_witness :
    (SetRecords ⟨[]⟩
        (.resp 200 ⟨some ⟨"1", "ok", ""⟩,
          some [⟨"1001", "example.com", "enable"⟩], none, none⟩)
        (.resp 200 ⟨some ⟨"1", "ok", ""⟩, none,
          some [⟨"42", "600", "v", "", "", "", "www", "", "", "TXT", "", "", ""⟩],
          none⟩)
        "example.com." [.TXT "www.example.com." "new" 0] []).2.2.1 =
      [.modify "42" (record.mk4 "www" "TXT" "new" "0")] := by
  have h := C3_set_match_amended.2.2.2 ⟨[]⟩
    (.resp 200 ⟨some ⟨"1", "ok", ""⟩,
      some [⟨"1001", "example.com", "enable"⟩], none, none⟩)
    (.resp 200 ⟨some ⟨"1", "ok", ""⟩, none,
      some [⟨"42", "600", "v", "", "", "", "www", "", "", "TXT", "", "", ""⟩],
      none⟩)
    "example.com." [.TXT "www.example.com." "new" 0] [] "1001"
    ⟨[⟨"1001", "example.com", "enable"⟩]⟩ 1
    [⟨"42", "600", "v", "", "", "", "www", "", "", "TXT", "", "", ""⟩] rfl rfl
  rw [h]
  decide

/-- C4: DeleteRecords matches an existing record exactly when its
translated {name, type, data} triple equals the input's canonical
projection (string equality, hence case-sensitive); when no existing
record matches an input, the operation stops with a record-not-found
error and returns the inputs deleted so far; in particular a first input
with no match yields zero deleted records. -/
theorem C4_delete_match :
    (∀ (existing : List record) (zone : String) (rr : RRfields),
      findRecordIDByTriple existing zone rr =
        (match existing.find? (tripleMatchB zone rr) with
          | some er => er.ID
          | none => "")) ∧
    (∀ (zone : String) (existing : List record) (oOK : HTTPOutcome)
        (done : List LibdnsRecord) (r : LibdnsRecord)
        (rest : List LibdnsRecord) (osRest : List HTTPOutcome),
      deleteRecord oOK = .ok () →
      (∀ d ∈ done, findRecordIDByTriple existing zone d.RRview ≠ "") →
      (∀ er ∈ existing, tripleMatchB zone r.RRview er = false) →
      deleteLoop zone existing (done ++ r :: rest)
          (List.replicate done.length oOK ++ osRest) =
        (done, some (.recordNotFound r.RRview.name r.RRview.ty
          r.RRview.data))) ∧
    (∀ (c : Client) (dOut lOut : HTTPOutcome) (zone : String)
        (r : LibdnsRecord) (rest : List LibdnsRecord)
        (os : List HTTPOutcome) (did : String) (c1 : Client) (k : Nat)
        (existing : List record),
      getDomainID c dOut zone = (.ok did, c1, k) →
      listRecords did lOut = .ok existing →
      (∀ er ∈ existing, tripleMatchB zone r.RRview er = false) →
      DeleteRecords c dOut lOut zone (r :: rest) os =
        ([], some (.recordNotFound r.RRview.name r.RRview.ty r.RRview.data),
          c1)) := by
  refine ⟨findRecordIDByTriple_eq_find?, ?_, ?_⟩
  · intro zone existing oOK done r rest osRest hok hdone hnone
    rw [deleteLoop_skip zone existing oOK hok done (r :: rest) osRest hdone,
      deleteLoop_head_no_match zone existing r rest osRest hnone]
    simp
  · intro c dOut lOut zone r rest os did c1 k existing hdid hlist hnone
    rw [DeleteRecords_resolved c dOut lOut zone (r :: rest) os did c1 k
      existing hdid hlist,
      deleteLoop_head_no_match zone existing r rest os hnone]

theorem C4_delete_match_witness :
    DeleteRecords ⟨[]⟩
        (.resp 200 ⟨some ⟨"1", "ok", ""⟩,
          some [⟨"1001", "example.com", "enable"⟩], none, none⟩)
        (.resp 200 ⟨some ⟨"1", "ok", ""⟩, none,
          some [record.mk4 "www" "TXT" "v" "600"], none⟩)
        "example.com." [.TXT "www.example.com." "x" 0] [] =
      ([], some (.recordNotFound "www.example.com." "TXT" "x"),
        ⟨[⟨"1001", "example.com", "enable"⟩]⟩) :=
  C4_delete_match.2.2 ⟨[]⟩
    (.resp 200 ⟨some ⟨"1", "ok", ""⟩,
      some [⟨"1001", "example.com", "enable"⟩], none, none⟩)
    (.resp 200 ⟨some ⟨"1", "ok", ""⟩, none,
      some [record.mk4 "www" "TXT" "v" "600"], none⟩)
    "example.com." (.TXT "www.example.com." "x" 0) [] [] "1001"
    ⟨[⟨"1001", "example.com", "enable"⟩]⟩ 1
    [record.mk4 "www" "TXT" "v" "600"] rfl rfl (by decide)

/-- C5: any envelope status code other than the success sentinel `"1"`
makes the call fail with the provider error carrying that code and
message; the check precedes endpoint payload decoding, so such responses
never reach record-level parsing (the payload fields are arbitrary here,
including absent). -/
theorem C5_envelope_gate (status : Nat) (body : Body) (env : Envelope)
    (did : String) (hs : status = 200) (henv : body.envelope = some env)
    (hc : env.code ≠ successCode) :
    makeRequest (.resp status body) = .error (.apiError env.code env.message) ∧
    listRecords did (.resp status body) =
      .error (.apiError env.code env.message) ∧
    createRecord (.resp status body) =
      .error (.apiError env.code env.message) := by
  subst hs
  have hmr : makeRequest (.resp 200 body) =
      .error (.apiError env.code env.message) := by
    show (if (200 : Nat) ≠ 200 then
        Except.error (ReqError.transportStatus 200)
      else match body.envelope with
        | none => Except.error ReqError.decodeError
        | some env =>
          if env.code ≠ successCode
          then Except.error (ReqError.apiError env.code env.message)
          else Except.ok body) = _
    rw [if_neg (by omega), henv]
    show (if env.code ≠ successCode
      then Except.error (ReqError.apiError env.code env.message)
      else Except.ok body) = _
    rw [if_pos hc]
  exact ⟨hmr, by unfold listRecords; rw [hmr], by unfold createRecord; rw [hmr]⟩

theorem C5_envelope_witness :
    makeRequest (.resp 200 ⟨some ⟨"-15", "auth failed", ""⟩, none, some [],
        none⟩) = .error (.apiError "-15" "auth failed") ∧
    listRecords "1001" (.resp 200 ⟨some ⟨"-15", "auth failed", ""⟩, none,
        some [], none⟩) = .error (.apiError "-15" "auth failed") ∧
    createRecord (.resp 200 ⟨some ⟨"-15", "auth failed", ""⟩, none, some [],
        none⟩) = .error (.apiError "-15" "auth failed") :=
  C5_envelope_gate 200 ⟨some ⟨"-15", "auth failed", ""⟩, none, some [], none⟩
    ⟨"-15", "auth failed", ""⟩ "1001" rfl rfl (by decide)

/-- C6 (counterexample): the claim fails as stated. Status 204 is a 2xx
transport status, yet the call fails with a transport-level error,
because the source compares the status against 200 exactly. -/
theorem C6_transport_counterexample :
    makeRequest (.resp 204 ⟨some ⟨"1", "ok", ""⟩, some [], some [],
        some (record.mk4 "a" "A" "192.0.2.1" "600")⟩) =
      .error (.transportStatus 204) ∧
    200 ≤ 204 ∧ 204 < 300 :=
  ⟨rfl, by omega, by omega⟩

/-- C6 (amended): a provider call fails at the transport level exactly
when a network failure occurs or the HTTP status differs from 200 (not:
is non-2xx); equivalently, a 200 status never by itself causes a
transport-level failure, but any other status - 2xx included - does. -/
theorem C6_transport_amended (o : HTTPOutcome) :
    isTransportError (makeRequest o) = true ↔
      (match o with
        | .netErr _ => True
        | .resp s _ => s ≠ 200) := by
  cases o with
  | netErr m => simp [makeRequest, isTransportError]
  | resp s b =>
    by_cases hs : s = 200
    · subst hs
      show isTransportError (if (200 : Nat) ≠ 200 then
          Except.error (ReqError.transportStatus 200)
        else match b.envelope with
          | none => Except.error ReqError.decodeError
          | some env =>
            if env.code ≠ successCode
            then Except.error (ReqError.apiError env.code env.message)
            else Except.ok b) = true ↔ (200 : Nat) ≠ 200
      rw [if_neg (by omega)]
      cases henv : b.envelope with
      | none => simp [isTransportError]
      | some env =>
        by_cases hc : env.code ≠ successCode
        · show isTransportError (if env.code ≠ successCode
              then Except.error (ReqError.apiError env.code env.message)
              else Except.ok b) = true ↔ (200 : Nat) ≠ 200
          rw [if_pos hc]
          simp [isTransportError]
        · show isTransportError (if env.code ≠ successCode
              then Except.error (ReqError.apiError env.code env.message)
              else Except.ok b) = true ↔ (200 : Nat) ≠ 200
          rw [if_neg hc]
          simp [isTransportError]
    · show isTransportError (if s ≠ 200 then
          Except.error (ReqError.transportStatus s)
        else match b.envelope with
          | none => Except.error ReqError.decodeError
          | some env =>
            if env.code ≠ successCode
            then Except.error (ReqError.apiError env.code env.message)
            else Except.ok b) = true ↔ s ≠ 200
      rw [if_pos hs]
      simp [isTransportError, hs]

/-- C7 (counterexample): the claim fails as stated. The in-zone absolute
name `www.example.com.` passes through absolutization unchanged, but
relativizing it yields `www`, so absolutizing-then-relativizing does not
return the starting name. -/
theorem C7_name_counterexample :
    makeAbsoluteName "www.example.com." "example.com." = "www.example.com." ∧
    extractRecordName "www.example.com." "example.com." = "www" ∧
    ("www" : String) ≠ "www.example.com." ∧
    InZoneName "www.example.com." "example.com." :=
  ⟨rfl, rfl, by decide, by decide⟩

/-- C7 (amended): the two name maps are inverse in the direction matching
each representation: relativizing then absolutizing returns every
fully-qualified in-zone name (apex included) whose relative part is a
nonempty label other than `@` without a trailing dot; absolutizing then
relativizing returns every relative name that is `@` or nonempty without
a trailing dot; and already-dot-terminated names pass through
absolutization unchanged. -/
theorem C7_name_amended :
    (∀ name zone : String, InZoneName name zone →
      makeAbsoluteName (extractRecordName name zone) zone = name) ∧
    (∀ r zone : String, (r = "@" ∨ (r ≠ "" ∧ goHasSuffix r "." = false)) →
      extractRecordName (makeAbsoluteName r zone) zone = r) ∧
    (∀ n zone : String, goHasSuffix n "." = true →
      makeAbsoluteName n zone = n) :=
  ⟨make_extract_inZone, extract_make_relative, makeAbsoluteName_absolute⟩

theorem C7_name_witness :
    makeAbsoluteName (extractRecordName "www.example.com." "example.com.")
        "example.com." = "www.example.com." ∧
    extractRecordName (makeAbsoluteName "www" "example.com.")
        "example.com." = "www" ∧
    makeAbsoluteName "test.other.org." "example.com." = "test.other.org." :=
  ⟨C7_name_amended.1 "www.example.com." "example.com." (by decide),
    C7_name_amended.2.1 "www" "example.com." (by decide),
    C7_name_amended.2.2 "test.other.org." "example.com." (by decide)⟩

/-- C8 (counterexample): the claim fails as stated. The mail-exchange
field `"-1"` is not a valid unsigned numeral, so per the claim the
preference should be 0; the source parses it as a signed integer and
converts to `uint16`, producing preference 65535. -/
theorem C8_mx_counterexample :
    convertToLibDNSRecord (record.mk5 "www" "MX" "mail.example.com." "600" "-1")
        "example.com." =
      .MX "www.example.com." "mail.example.com." 65535 600000000000 ∧
    (65535 : Nat) ≠ 0 :=
  ⟨by decide, by decide⟩

/-- C8 (amended): for a provider record whose (upper-cased) type is MX,
the preference is 0 when the mail-exchange field is empty or fails the
signed 64-bit integer parse, and otherwise it is the parsed SIGNED value
reduced modulo 2^16 (Go's conversion to `uint16`) - not an unsigned
parse. -/
theorem C8_mx_amended (rec0 : record) (zone : String)
    (hty : goToUpper rec0.Ty = "MX") :
    ((rec0.MX = "" ∨ (goParseInt64 rec0.MX).2 = false) →
      convertToLibDNSRecord rec0 zone =
        .MX (makeAbsoluteName rec0.Name zone) rec0.Value 0
          (int64wrap ((goParseInt64 rec0.TTL).1 * 1000000000))) ∧
    ((rec0.MX ≠ "" ∧ (goParseInt64 rec0.MX).2 = true) →
      convertToLibDNSRecord rec0 zone =
        .MX (makeAbsoluteName rec0.Name zone) rec0.Value
          (((goParseInt64 rec0.MX).1 % 65536).toNat)
          (int64wrap ((goParseInt64 rec0.TTL).1 * 1000000000))) := by
  have hA : goToUpper rec0.Ty ≠ "A" := by rw [hty]; decide
  have hAAAA : goToUpper rec0.Ty ≠ "AAAA" := by rw [hty]; decide
  have hTXT : goToUpper rec0.Ty ≠ "TXT" := by rw [hty]; decide
  have hCNAME : goToUpper rec0.Ty ≠ "CNAME" := by rw [hty]; decide
  unfold convertToLibDNSRecord
  rw [if_neg (by rintro (hc | hc); exacts [hA hc, hAAAA hc]), if_neg hTXT,
    if_neg hCNAME, if_pos hty]
  constructor
  · intro h
    have hcond : ¬ (rec0.MX ≠ "" ∧ (goParseInt64 rec0.MX).2 = true) := by
      rcases h with h | h
      · rintro ⟨h1, _⟩; exact h1 h
      · rintro ⟨_, h2⟩; rw [h] at h2; exact Bool.noConfusion h2
    rw [if_neg hcond]
    rfl
  · intro h
    rw [if_pos h]
    rfl

theorem C8_mx_witness :
    convertToLibDNSRecord (record.mk5 "m" "MX" "t" "300" "notanumber")
        "zone.org." =
      .MX (makeAbsoluteName "m" "zone.org.") "t" 0
        (int64wrap ((goParseInt64 "300").1 * 1000000000)) :=
  (C8_mx_amended (record.mk5 "m" "MX" "t" "300" "notanumber") "zone.org."
    (by decide)).1 (by decide)

/-- C9: the empty string is the no-match sentinel for record identifiers.
When the first {name, type, data} match in DeleteRecords has an empty
identifier, the operation reports record-not-found even though a record
matches; when the first {name, type} match in SetRecords has an empty
identifier, a create is issued instead of a modify. -/
theorem C9_empty_id_sentinel :
    (∀ (zone : String) (existing : List record) (r : LibdnsRecord)
        (rest : List LibdnsRecord) (os : List HTTPOutcome) (er : record),
      existing.find? (tripleMatchB zone r.RRview) = some er → er.ID = "" →
      deleteLoop zone existing (r :: rest) os =
        ([], some (.recordNotFound r.RRview.name r.RRview.ty
          r.RRview.data))) ∧
    (∀ (zone : String) (existing : List record) (r : LibdnsRecord)
        (rest : List LibdnsRecord) (os : List HTTPOutcome) (er : record),
      existing.find? (nameTypeMatchB zone r.RRview) = some er → er.ID = "" →
      (setLoop zone existing (r :: rest) os).2.2.head? =
        some (.create (convertFromLibDNSRecord r zone))) := by
  constructor
  · intro zone existing r rest os er hfind hID
    have hid : findRecordIDByTriple existing zone r.RRview = "" := by
      rw [findRecordIDByTriple_eq_find?, hfind]
      exact hID
    simp only [deleteLoop]
    rw [if_pos hid]
  · intro zone existing r rest os er hfind hID
    have hid : findRecordIDByNameType existing zone r.RRview = "" := by
      rw [findRecordIDByNameType_eq_find?, hfind]
      exact hID
    rw [setLoop_head]
    simp only [setStepCall]
    rw [if_neg (by simp [hid])]

theorem C9_empty_id_witness :
    deleteLoop "example.com." [record.mk4 "www" "TXT" "v" "600"]
        [.TXT "www.example.com." "v" 600000000000] [] =
      ([], some (.recordNotFound "www.example.com." "TXT" "v")) ∧
    (setLoop "example.com." [record.mk4 "www" "TXT" "v" "600"]
        [.TXT "www.example.com." "v" 600000000000] []).2.2.head? =
      some (.create (record.mk4 "www" "TXT" "v" "600")) :=
  ⟨C9_empty_id_sentinel.1 "example.com." [record.mk4 "www" "TXT" "v" "600"]
      (.TXT "www.example.com." "v" 600000000000) [] []
      (record.mk4 "www" "TXT" "v" "600") (by decide) rfl,
    C9_empty_id_sentinel.2 "example.com." [record.mk4 "www" "TXT" "v" "600"]
      (.TXT "www.example.com." "v" 600000000000) [] []
      (record.mk4 "www" "TXT" "v" "600") (by decide) rfl⟩

/-- C10: the records DeleteRecords returns are a prefix of the caller's
input list, element-for-element the caller's own records (the loop
appends `libRec`, not a record translated back from the provider), and
on full success (no error) the result is the entire input list. -/
theorem C10_delete_returns_inputs (c : Client) (dOut lOut : HTTPOutcome)
    (zone : String) (inputs : List LibdnsRecord) (os : List HTTPOutcome) :
    (DeleteRecords c dOut lOut zone inputs os).1 =
      inputs.take (DeleteRecords c dOut lOut zone inputs os).1.length ∧
    ((DeleteRecords c dOut lOut zone inputs os).2.1 = none →
      (DeleteRecords c dOut lOut zone inputs os).1 = inputs) := by
  unfold DeleteRecords
  split
  · exact ⟨by simp, fun hc => Option.noConfusion hc⟩
  · split
    · exact ⟨by simp, fun hc => Option.noConfusion hc⟩
    · next existing heq =>
      obtain ⟨h1, h2⟩ := deleteLoop_take zone existing inputs os
      exact ⟨h1, h2⟩

theorem C10_delete_returns_inputs_witness :
    (DeleteRecords ⟨[]⟩
        (.resp 200 ⟨some ⟨"1", "ok", ""⟩,
          some [⟨"1001", "example.com", "enable"⟩], none, none⟩)
        (.resp 200 ⟨some ⟨"1", "ok", ""⟩, none,
          some [⟨"42", "600", "v", "", "", "", "www", "", "", "TXT", "", "",
            ""⟩], none⟩)
        "example.com." [.TXT "www.example.com." "v" 600000000000]
        [.resp 200 ⟨some ⟨"1", "ok", ""⟩, none, none, none⟩]).1 =
      [.TXT "www.example.com." "v" 600000000000] :=
  (C10_delete_returns_inputs ⟨[]⟩
    (.resp 200 ⟨some ⟨"1", "ok", ""⟩,
      some [⟨"1001", "example.com", "enable"⟩], none, none⟩)
    (.resp 200 ⟨some ⟨"1", "ok", ""⟩, none,
      some [⟨"42", "600", "v", "", "", "", "www", "", "", "TXT", "", "", ""⟩],
      none⟩)
    "example.com." [.TXT "www.example.com." "v" 600000000000]
    [.resp 200 ⟨some ⟨"1", "ok", ""⟩, none, none, none⟩]).2 (by decide)
